import Mathlib

/-!
Shallow embedding of the jump-game core (src/src/lib.rs) and proofs about it.

Floating-point (f64) values are modelled as rationals; u32 viewport values are
modelled as naturals with explicit wrapping subtraction where the source
performs u32 subtraction; i32 score values are modelled as integers. The
canvas context and all drawing calls are irrelevant to the simulation state
and are omitted. The uniform random source (js_sys Math random, values in
[0,1)) is passed in explicitly: construction takes one draw per generated
platform, update takes the single draw its generation step may consume.
-/

namespace JumpGame

/-- Wrapping u32 subtraction: the value of the Rust expression a - b on u32
operands in release mode, for a < 2 ^ 32. -/
def u32sub (a b : ℕ) : ℕ := (a + 2 ^ 32 - b % 2 ^ 32) % 2 ^ 32

/-- The Player struct of src/src/lib.rs. -/
structure Player where
  x : ℚ
  y : ℚ
  width : ℚ
  height : ℚ
  velocity_x : ℚ
  velocity_y : ℚ
  is_jumping : Bool
  is_moving_left : Bool
  is_moving_right : Bool
  deriving DecidableEq

/-- Player::new: position as given, size 50 by 50, zero velocity, all flags
cleared. -/
def Player.new (x y : ℚ) : Player :=
  { x := x, y := y, width := 50, height := 50, velocity_x := 0, velocity_y := 0,
    is_jumping := false, is_moving_left := false, is_moving_right := false }

/-- The Block struct (a platform) of src/src/lib.rs. -/
structure Block where
  x : ℚ
  y : ℚ
  width : ℚ
  height : ℚ
  deriving DecidableEq

/-- The GameState enum. -/
inductive GameState where
  | Playing
  | GameOver
  deriving DecidableEq

/-- The Game struct, without the canvas context (draw-only). -/
structure Game where
  state : GameState
  player : Player
  blocks : List Block
  width : ℕ
  height : ℕ
  camera_y : ℚ
  score : ℤ
  deriving DecidableEq

/-- Game::new: ground block at (0, height-20) spanning the width, then for
i in 1..10 a block at y = height - 120*i (u32 subtraction) with x a fresh
random draw scaled by (width - 100) (u32 subtraction); player centered at
(width/2 - 25, height - 70); camera 0, score 0, state Playing. -/
def Game.new (W H : ℕ) (r : ℕ → ℚ) : Game :=
  { state := GameState.Playing
    player := Player.new (((W / 2 : ℕ) : ℚ) - 25) ((u32sub H 70 : ℕ) : ℚ)
    blocks := Block.mk 0 ((u32sub H 20 : ℕ) : ℚ) (W : ℚ) 20 ::
      (List.range 9).map (fun j =>
        Block.mk (r (j + 1) * ((u32sub W 100 : ℕ) : ℚ))
          ((u32sub H (120 * (j + 1)) : ℕ) : ℚ) 100 20)
    width := W
    height := H
    camera_y := 0
    score := 0 }

/-- The movement, gravity, integration and wall-clamp steps of Game::update:
velocity_x from the intent flags (left wins over right), velocity_y += 0.5,
x += velocity_x, y += velocity_y, then clamp x to [0, width - player.width]
by the two sequential wall checks. -/
def physStep (W : ℕ) (p : Player) : Player :=
  let vx : ℚ := if p.is_moving_left then -5 else if p.is_moving_right then 5 else 0
  let vy : ℚ := p.velocity_y + 1/2
  let x1 : ℚ := p.x + vx
  let x2 : ℚ := if x1 < 0 then 0 else x1
  let x3 : ℚ := if x2 + p.width > (W : ℚ) then (W : ℚ) - p.width else x2
  { p with x := x3, y := p.y + vy, velocity_x := vx, velocity_y := vy }

/-- The per-block collision test of Game::update, in source order: falling,
horizontal overlap both ways, bottom at or below the block top, bottom within
this frame's fall distance of the block top. -/
def matchB (p : Player) (b : Block) : Prop :=
  0 < p.velocity_y ∧ p.x < b.x + b.width ∧ b.x < p.x + p.width ∧
    b.y ≤ p.y + p.height ∧ p.y + p.height ≤ b.y + p.velocity_y

instance (p : Player) (b : Block) : Decidable (matchB p b) := by
  unfold matchB; exact inferInstance

/-- One iteration of the collision loop: if the test passes, snap the player
bottom to the block top, zero velocity_y and clear is_jumping. -/
def collideOne (p : Player) (b : Block) : Player :=
  if matchB p b then
    { p with y := b.y - p.height, velocity_y := 0, is_jumping := false }
  else p

/-- The whole collision loop over the block list, mutating the player left to
right exactly as the source for-loop does. -/
def collideAll (p : Player) (bs : List Block) : Player := bs.foldl collideOne p

/-- The camera-follow step: if the player is above the midline, snap the
camera so the player sits exactly on the midline. -/
def camStep (H : ℕ) (cy : ℚ) (p : Player) : ℚ :=
  if p.y - cy < (H : ℚ) / 2 then p.y - (H : ℚ) / 2 else cy

/-- f64-to-i32 conversion: truncation toward zero (the saturating behaviour
of the cast outside the i32 range is not modelled; every value the program
produces in a session is far inside it). -/
def ratTrunc (q : ℚ) : ℤ := if 0 ≤ q then ⌊q⌋ else ⌈q⌉

/-- The score step: candidate -(y - (height - 70)) / 10 cast to i32, with
(height - 70) computed by u32 subtraction; keep the larger of candidate and
the current score. -/
def scoreStep (H : ℕ) (sc : ℤ) (p : Player) : ℤ :=
  let ns := ratTrunc (-(p.y - ((u32sub H 70 : ℕ) : ℚ)) / 10)
  if sc < ns then ns else sc

/-- The block built by the generation step of Game::update from the last
block: 120 above it, x drawn from the intersection of the reachability band
[last.x - 200, last.x + last.width + 200] and the margin band
[50, width - 100 - 50], falling back to (width / 2 - 50) (u32 arithmetic)
when the intersection is not a proper interval. -/
def genOne (r : ℚ) (W : ℕ) (lb : Block) : Block :=
  let y := lb.y - 120
  let relMin := lb.x - 200
  let relMax := lb.x + lb.width + 200
  let sMin : ℚ := 50
  let sMax : ℚ := (W : ℚ) - 100 - 50
  let minX := max relMin sMin
  let maxX := min relMax sMax
  let x := if minX < maxX then minX + r * (maxX - minX)
    else ((u32sub (W / 2) 50 : ℕ) : ℚ)
  Block.mk x y 100 20

/-- The body of Game::update once the state is Playing and the last block
exists, in source order: physics and walls, collision loop, camera follow,
game-over check, score update, conditional generation of one block, pruning
of blocks at or below the view. -/
def updateGo (r : ℚ) (g : Game) (lb : Block) : Game :=
  let p := collideAll (physStep g.width g.player) g.blocks
  let cam := camStep g.height g.camera_y p
  let st := if (g.height : ℚ) < p.y - cam then GameState.GameOver else GameState.Playing
  let sc := scoreStep g.height g.score p
  let bs1 := if (-100 : ℚ) < lb.y - cam then g.blocks ++ [genOne r g.width lb] else g.blocks
  let bs2 := bs1.filter (fun b => decide (b.y - cam < (g.height : ℚ)))
  { g with player := p, state := st, score := sc, camera_y := cam, blocks := bs2 }

/-- Game::update: no-op returning the state unchanged unless Playing; the
generation step reads blocks.last().unwrap(), whose panic on an empty list is
modelled as none. -/
def Game.update (r : ℚ) (g : Game) : Option Game :=
  if g.state = GameState.Playing then
    match g.blocks.getLast? with
    | none => none
    | some lb => some (updateGo r g lb)
  else some g

/-- Game::jump: only while Playing and not already jumping, set velocity_y to
-15 and is_jumping. -/
def Game.jump (g : Game) : Game :=
  if g.state = GameState.Playing ∧ g.player.is_jumping = false then
    { g with player := { g.player with velocity_y := -15, is_jumping := true } }
  else g

/-- The two directions Game::start_move and Game::stop_move react to; any
other string is a no-op in the source and adds nothing to the state space. -/
inductive MoveDir where
  | left
  | right
  deriving DecidableEq

/-- Game::start_move: only while Playing, raise the matching intent flag. -/
def Game.startMove (d : MoveDir) (g : Game) : Game :=
  if g.state = GameState.Playing then
    match d with
    | MoveDir.left => { g with player := { g.player with is_moving_left := true } }
    | MoveDir.right => { g with player := { g.player with is_moving_right := true } }
  else g

/-- Game::stop_move: clear the matching intent flag, in any state. -/
def Game.stopMove (d : MoveDir) (g : Game) : Game :=
  match d with
  | MoveDir.left => { g with player := { g.player with is_moving_left := false } }
  | MoveDir.right => { g with player := { g.player with is_moving_right := false } }

/-- Game::resize: store the new viewport dimensions, nothing else. -/
def Game.resize (w h : ℕ) (g : Game) : Game := { g with width := w, height := h }

/-- A zero random source, used for concrete evaluations. -/
def rz : ℕ → ℚ := fun _ => 0

/-- A minimal finished game, used to instantiate theorems about update. -/
def exGameOver : Game :=
  { state := GameState.GameOver, player := Player.new 0 0, blocks := [],
    width := 1, height := 1, camera_y := 0, score := 0 }

/-- A falling player about to cross two stacked platform tops in one frame:
after integration its bottom is 105 with fall distance 20, so both the
platform at y 100 and the platform at y 105 pass the collision test against
the pre-collision state. -/
def gTwoHits : Game :=
  { state := GameState.Playing
    player := { x := 0, y := 35, width := 50, height := 50, velocity_x := 0,
                velocity_y := 39/2, is_jumping := false, is_moving_left := false,
                is_moving_right := false }
    blocks := [Block.mk 0 100 100 20, Block.mk 0 105 100 20]
    width := 800
    height := 600
    camera_y := 0
    score := 0 }

/-- A small Playing state whose single tick is easy to write out in full. -/
def gSmall : Game :=
  { state := GameState.Playing
    player := Player.new 0 0
    blocks := [Block.mk 0 500 100 20]
    width := 100
    height := 1000
    camera_y := 0
    score := 0 }

/-- The state gSmall reaches after one update with a zero random draw. -/
def gSmall' : Game :=
  { state := GameState.Playing
    player := { x := 0, y := 1/2, width := 50, height := 50, velocity_x := 0,
                velocity_y := 1/2, is_jumping := false, is_moving_left := false,
                is_moving_right := false }
    blocks := [Block.mk 0 500 100 20, Block.mk 0 380 100 20]
    width := 100
    height := 1000
    camera_y := -999/2
    score := 92 }

/-- Invariant of every reachable Playing state: the player never moves up
faster than the jump impulse, and the newest (topmost) platform sits at least
100 above the player, so it can never be pruned while the player is still on
screen. -/
def PlayInv (g : Game) : Prop :=
  g.state = GameState.Playing →
    (-15 ≤ g.player.velocity_y ∧
      ∃ lb, g.blocks.getLast? = some lb ∧ lb.y - g.player.y ≤ -100)

/-- States reachable from a construction with a tall enough viewport through
the public mutators. The update constructor carries the tick's random draw;
resize admits arbitrary u32 dimensions. -/
inductive Reachable : Game → Prop where
  | init (W H : ℕ) (r : ℕ → ℚ) (hH : 1080 ≤ H) (hH2 : H < 2 ^ 32) :
      Reachable (Game.new W H r)
  | step (g g' : Game) (r : ℚ) : Reachable g → Game.update r g = some g' → Reachable g'
  | jump (g : Game) : Reachable g → Reachable (Game.jump g)
  | start (g : Game) (d : MoveDir) : Reachable g → Reachable (Game.startMove d g)
  | stop (g : Game) (d : MoveDir) : Reachable g → Reachable (Game.stopMove d g)
  | resize (g : Game) (w h : ℕ) (hw : w < 2 ^ 32) (hh : h < 2 ^ 32) :
      Reachable g → Reachable (Game.resize w h g)

/-! ## Basic facts about the embedded operations -/

theorem u32sub_eq {a b : ℕ} (hba : b ≤ a) (ha : a < 2 ^ 32) : u32sub a b = a - b := by
  have hb : b % 2 ^ 32 = b := Nat.mod_eq_of_lt (lt_of_le_of_lt hba ha)
  unfold u32sub
  rw [hb]
  have h1 : a + 2 ^ 32 - b = (a - b) + 2 ^ 32 := by omega
  rw [h1, Nat.add_mod_right]
  exact Nat.mod_eq_of_lt (by omega)

theorem physStep_y (W : ℕ) (p : Player) :
    (physStep W p).y = p.y + (p.velocity_y + 1/2) := by
  simp [physStep]

theorem physStep_vy (W : ℕ) (p : Player) :
    (physStep W p).velocity_y = p.velocity_y + 1/2 := by
  simp [physStep]

theorem collideAll_nil (p : Player) : collideAll p [] = p := rfl

theorem collideAll_cons (p : Player) (b : Block) (bs : List Block) :
    collideAll p (b :: bs) = collideAll (collideOne p b) bs := rfl

theorem collideOne_of_not (p : Player) (b : Block) (h : ¬ matchB p b) :
    collideOne p b = p := by
  simp [collideOne, h]

theorem collideOne_of_match (p : Player) (b : Block) (h : matchB p b) :
    collideOne p b = { p with y := b.y - p.height, velocity_y := 0, is_jumping := false } := by
  simp [collideOne, h]

/-- A non-falling player passes through the whole collision loop unchanged:
every iteration requires a positive downward velocity. -/
theorem collideAll_of_nonpos (bs : List Block) (p : Player) (h : p.velocity_y ≤ 0) :
    collideAll p bs = p := by
  induction bs with
  | nil => rfl
  | cons b bs ih =>
    rw [collideAll_cons, collideOne_of_not p b (fun hm => absurd hm.1 (not_lt.2 h)), ih]

/-- Net effect of the collision loop on vertical position and velocity:
either nothing matched, or the player was snapped upward by at most the
pre-loop velocity_y and the velocity was zeroed. -/
theorem collideAll_spec (bs : List Block) (p : Player) :
    ((collideAll p bs).y = p.y ∧ (collideAll p bs).velocity_y = p.velocity_y) ∨
      (p.y - p.velocity_y ≤ (collideAll p bs).y ∧ (collideAll p bs).y ≤ p.y ∧
        (collideAll p bs).velocity_y = 0) := by
  induction bs with
  | nil => exact Or.inl ⟨rfl, rfl⟩
  | cons b bs ih =>
    rw [collideAll_cons]
    by_cases hm : matchB p b
    · rw [collideOne_of_match p b hm,
        collideAll_of_nonpos bs _ (by simp)]
      refine Or.inr ⟨?_, ?_, rfl⟩
      · simp only []
        have h1 : p.y + p.height ≤ b.y + p.velocity_y := hm.2.2.2.2
        linarith
      · simp only []
        have h2 : b.y ≤ p.y + p.height := hm.2.2.2.1
        linarith
    · rw [collideOne_of_not p b hm]
      exact ih

theorem camStep_le (H : ℕ) (cy : ℚ) (p : Player) : camStep H cy p ≤ cy := by
  unfold camStep
  split
  · next h => linarith
  · exact le_refl cy

theorem camStep_le_mid (H : ℕ) (cy : ℚ) (p : Player) :
    camStep H cy p ≤ p.y - (H : ℚ) / 2 := by
  unfold camStep
  split
  · exact le_refl _
  · next h => linarith [not_lt.1 h]

theorem genOne_y (r : ℚ) (W : ℕ) (lb : Block) : (genOne r W lb).y = lb.y - 120 := by
  simp [genOne]

theorem genOne_width (r : ℚ) (W : ℕ) (lb : Block) : (genOne r W lb).width = 100 := rfl

theorem genOne_height (r : ℚ) (W : ℕ) (lb : Block) : (genOne r W lb).height = 20 := rfl

/-- A list whose getLast? is some a decomposes as t ++ [a]. -/
theorem getLast_decomp {α : Type} : ∀ (l : List α) (a : α),
    l.getLast? = some a → ∃ t, l = t ++ [a]
  | [], a, h => by simp at h
  | [x], a, h => by
    refine ⟨[], ?_⟩
    simp only [List.getLast?_singleton, Option.some.injEq] at h
    simp [h]
  | x :: y :: l, a, h => by
    rw [List.getLast?_cons_cons] at h
    obtain ⟨t, ht⟩ := getLast_decomp (y :: l) a h
    exact ⟨x :: t, by simp [ht]⟩

/-- Filtering keeps the last element as last whenever it passes the test. -/
theorem getLast_filter (f : Block → Bool) (l : List Block) (a : Block)
    (h : l.getLast? = some a) (hf : f a = true) :
    (l.filter f).getLast? = some a := by
  obtain ⟨t, rfl⟩ := getLast_decomp l a h
  rw [List.filter_append]
  simp only [List.filter, hf]
  exact List.getLast?_concat _

/-- The score branch equals a max against the floor of the candidate whenever
the running score is non-negative: truncation toward zero and flooring differ
only on negative candidates, which a non-negative score already dominates. -/
theorem ratTrunc_max (sc : ℤ) (v : ℚ) (h : 0 ≤ sc) :
    (if sc < ratTrunc v then ratTrunc v else sc) = max sc ⌊v⌋ := by
  by_cases hv : 0 ≤ v
  · rw [ratTrunc, if_pos hv]
    by_cases h2 : sc < ⌊v⌋
    · rw [if_pos h2, max_eq_right h2.le]
    · rw [if_neg h2, max_eq_left (not_lt.1 h2)]
  · rw [ratTrunc, if_neg hv]
    push_neg at hv
    have hc : ⌈v⌉ ≤ 0 := by exact_mod_cast Int.ceil_le.2 (by exact_mod_cast hv.le)
    have hf : ⌊v⌋ ≤ ⌈v⌉ := Int.floor_le_ceil v
    rw [if_neg (by omega), max_eq_left (by omega)]

theorem update_gameOver (r : ℚ) (g : Game) (h : g.state = GameState.GameOver) :
    Game.update r g = some g := by
  have : ¬ g.state = GameState.Playing := by rw [h]; simp
  simp [Game.update, this]

theorem update_playing (r : ℚ) (g : Game) (lb : Block)
    (hst : g.state = GameState.Playing) (hlast : g.blocks.getLast? = some lb) :
    Game.update r g = some (updateGo r g lb) := by
  simp [Game.update, hst, hlast]

theorem update_empty (r : ℚ) (g : Game)
    (hst : g.state = GameState.Playing) (hnil : g.blocks = []) :
    Game.update r g = none := by
  simp [Game.update, hst, hnil]

theorem updateGo_player (r : ℚ) (g : Game) (lb : Block) :
    (updateGo r g lb).player = collideAll (physStep g.width g.player) g.blocks := rfl

theorem updateGo_camera (r : ℚ) (g : Game) (lb : Block) :
    (updateGo r g lb).camera_y =
      camStep g.height g.camera_y (collideAll (physStep g.width g.player) g.blocks) := rfl

theorem updateGo_state (r : ℚ) (g : Game) (lb : Block) :
    (updateGo r g lb).state =
      (if (g.height : ℚ) <
          (collideAll (physStep g.width g.player) g.blocks).y -
            camStep g.height g.camera_y (collideAll (physStep g.width g.player) g.blocks)
        then GameState.GameOver else GameState.Playing) := rfl

theorem updateGo_score (r : ℚ) (g : Game) (lb : Block) :
    (updateGo r g lb).score =
      scoreStep g.height g.score (collideAll (physStep g.width g.player) g.blocks) := rfl

theorem updateGo_blocks (r : ℚ) (g : Game) (lb : Block) :
    (updateGo r g lb).blocks =
      (if (-100 : ℚ) < lb.y -
            camStep g.height g.camera_y (collideAll (physStep g.width g.player) g.blocks)
        then g.blocks ++ [genOne r g.width lb] else g.blocks).filter
        (fun b => decide (b.y -
          camStep g.height g.camera_y (collideAll (physStep g.width g.player) g.blocks) <
            (g.height : ℚ))) := rfl

theorem updateGo_width (r : ℚ) (g : Game) (lb : Block) :
    (updateGo r g lb).width = g.width := rfl

theorem updateGo_height (r : ℚ) (g : Game) (lb : Block) :
    (updateGo r g lb).height = g.height := rfl

/-! ## Preservation of the generation-safety invariant -/

theorem playInv_init (W H : ℕ) (r : ℕ → ℚ) (hH : 1080 ≤ H) (hH2 : H < 2 ^ 32) :
    PlayInv (Game.new W H r) := by
  intro _
  constructor
  · simp [Game.new, Player.new]
  · refine ⟨Block.mk (r 9 * ((u32sub W 100 : ℕ) : ℚ)) ((u32sub H (120 * 9) : ℕ) : ℚ) 100 20,
      ?_, ?_⟩
    · show (Game.new W H r).blocks.getLast? = _
      rw [Game.new]
      have h9 : List.range 9 = [0, 1, 2, 3, 4, 5, 6, 7, 8] := rfl
      simp only [h9, List.map_cons, List.map_nil]
      rfl
    · show ((u32sub H (120 * 9) : ℕ) : ℚ) - (Game.new W H r).player.y ≤ -100
      have hy : (Game.new W H r).player.y = ((u32sub H 70 : ℕ) : ℚ) := rfl
      rw [hy, u32sub_eq (by omega) hH2, u32sub_eq (by omega) hH2]
      rw [Nat.cast_sub (by omega), Nat.cast_sub (by omega)]
      push_cast
      linarith

theorem playInv_jump (g : Game) (h : PlayInv g) : PlayInv (Game.jump g) := by
  intro hst
  unfold Game.jump at hst ⊢
  split at hst
  · next hc =>
    simp only [if_pos hc]
    obtain ⟨_, lb, hl, hq⟩ := h hc.1
    exact ⟨by norm_num, lb, hl, hq⟩
  · next hc =>
    simp only [if_neg hc]
    exact h hst

theorem playInv_start (g : Game) (d : MoveDir) (h : PlayInv g) :
    PlayInv (Game.startMove d g) := by
  intro hst
  unfold Game.startMove at hst ⊢
  split at hst
  · next hc =>
    simp only [if_pos hc]
    obtain ⟨hv, lb, hl, hq⟩ := h hc
    cases d <;> exact ⟨hv, lb, hl, hq⟩
  · next hc =>
    simp only [if_neg hc]
    exact h hst

theorem playInv_stop (g : Game) (d : MoveDir) (h : PlayInv g) :
    PlayInv (Game.stopMove d g) := by
  intro hst
  unfold Game.stopMove at hst ⊢
  cases d <;> · obtain ⟨hv, lb, hl, hq⟩ := h hst; exact ⟨hv, lb, hl, hq⟩

theorem playInv_resize (g : Game) (w hgt : ℕ) (h : PlayInv g) :
    PlayInv (Game.resize w hgt g) := by
  intro hst
  obtain ⟨hv, lb, hl, hq⟩ := h hst
  exact ⟨hv, lb, hl, hq⟩

/-- The tick preserves the invariant: the camera ends at or above the
midline, the player drops by at most 15 per tick, and a generated platform
starts 120 above an already-safe one, so the topmost platform stays at least
100 above the player and survives pruning whenever the tick stays Playing. -/
theorem playInv_update (g g' : Game) (r : ℚ) (hinv : PlayInv g)
    (heq : Game.update r g = some g') : PlayInv g' := by
  by_cases hst : g.state = GameState.Playing
  · obtain ⟨hvy, lb, hlast, hQ⟩ := hinv hst
    rw [update_playing r g lb hst hlast, Option.some.injEq] at heq
    subst heq
    set p2 := collideAll (physStep g.width g.player) g.blocks with hp2
    set cam := camStep g.height g.camera_y p2 with hcam
    intro hst'
    rw [updateGo_state] at hst'
    have hOn : p2.y - cam ≤ (g.height : ℚ) := by
      by_contra hc
      rw [if_pos (not_le.1 hc)] at hst'
      exact GameState.noConfusion hst'
    have hmid : cam ≤ p2.y - (g.height : ℚ) / 2 := camStep_le_mid g.height g.camera_y p2
    have hH0 : (0 : ℚ) ≤ (g.height : ℚ) := Nat.cast_nonneg _
    have hdelta : g.player.y - 15 ≤ p2.y ∧ -15 ≤ p2.velocity_y := by
      rcases collideAll_spec g.blocks (physStep g.width g.player) with ⟨h1, h2⟩ | ⟨h1, h2, h3⟩
      · rw [hp2] at *
        rw [h1, h2, physStep_y, physStep_vy]
        constructor <;> linarith
      · rw [hp2] at *
        rw [physStep_y, physStep_vy] at h1
        rw [h3]
        constructor <;> linarith
    have hQ2 : lb.y - p2.y ≤ -85 := by linarith [hdelta.1]
    refine ⟨by rw [updateGo_player]; exact hdelta.2, ?_⟩
    rw [updateGo_blocks, updateGo_player]
    by_cases hgen : (-100 : ℚ) < lb.y - cam
    · rw [if_pos hgen]
      refine ⟨genOne r g.width lb, ?_, ?_⟩
      · apply getLast_filter _ _ _ (List.getLast?_concat _)
        rw [decide_eq_true_iff, genOne_y]
        linarith
      · rw [genOne_y]
        linarith
    · rw [if_neg hgen]
      have hle : lb.y - cam ≤ -100 := not_lt.1 hgen
      refine ⟨lb, ?_, ?_⟩
      · apply getLast_filter _ _ _ hlast
        rw [decide_eq_true_iff]
        linarith
      · linarith
  · rw [Game.update, if_neg hst, Option.some.injEq] at heq
    subst heq
    exact hinv

theorem reachable_playInv (g : Game) (h : Reachable g) : PlayInv g := by
  induction h with
  | init W H r hH hH2 => exact playInv_init W H r hH hH2
  | step g g' r _ heq ih => exact playInv_update g g' r ih heq
  | jump g _ ih => exact playInv_jump g ih
  | start g d _ ih => exact playInv_start g d ih
  | stop g d _ ih => exact playInv_stop g d ih
  | resize g w hgt _ _ _ ih => exact playInv_resize g w hgt ih

/-! ## Claim C4 -/

/-- C4, counterexample: the claim fails as stated for small viewports. On an
800 by 80 viewport the nine generated rows wrap around u32 zero in
Game::new, the first update prunes every block (the ground included, since
the camera snaps up by 30) while the game-over check does not fire, and the
second update reads the last element of an empty list: the unwrap panics in
a Playing tick. -/
theorem c4_counterexample :
    (Game.update 0 (Game.new 800 80 rz)).map
      (fun g => (decide (g.state = GameState.Playing), g.blocks.length)) = some (true, 0) ∧
    (Game.update 0 (Game.new 800 80 rz)).bind (Game.update 0) = none := by
  constructor
  · norm_num [Game.update, Game.new, updateGo, collideAll, collideOne, matchB, physStep,
      camStep, scoreStep, ratTrunc, genOne, u32sub, rz, Player.new, List.range_succ,
      List.filter]
  · norm_num [Game.update, Game.new, updateGo, collideAll, collideOne, matchB, physStep,
      camStep, scoreStep, ratTrunc, genOne, u32sub, rz, Player.new, List.range_succ,
      List.filter]

/-- C4, amended: starting from a construction whose viewport height is at
least 1080 (so the initial platform rows do not wrap below zero in u32
arithmetic), every reachable Playing state has a non-empty platform
sequence, and no update can reach the unwrap panic: pruning can only empty
the list in a tick whose game-over check has already left Playing. -/
theorem c4_theorem (g : Game) (h : Reachable g) :
    (g.state = GameState.Playing → g.blocks ≠ []) ∧ ∀ r, Game.update r g ≠ none := by
  have hinv := reachable_playInv g h
  constructor
  · intro hp hnil
    obtain ⟨_, lb, hl, _⟩ := hinv hp
    rw [hnil] at hl
    simp at hl
  · intro r
    by_cases hp : g.state = GameState.Playing
    · obtain ⟨_, lb, hl, _⟩ := hinv hp
      rw [update_playing r g lb hp hl]
      simp
    · rw [Game.update, if_neg hp]
      simp

/-- C4, witness: the amended theorem applies to a freshly constructed 800 by
1200 game. -/
theorem c4_witness : Game.update 0 (Game.new 800 1200 rz) ≠ none :=
  (c4_theorem _ (Reachable.init 800 1200 rz (by norm_num) (by norm_num))).2 0

/-! ## Claim C6 -/

/-- C6: every completed update, from any state whatever and for any intent
flags and random draw, leaves the score no smaller and the camera no lower
(cameraY no larger) than before. -/
theorem c6_theorem (g : Game) (r : ℚ) (g' : Game) (heq : Game.update r g = some g') :
    g.score ≤ g'.score ∧ g'.camera_y ≤ g.camera_y := by
  by_cases hst : g.state = GameState.Playing
  · cases hlast : g.blocks.getLast? with
    | none => rw [Game.update, if_pos hst, hlast] at heq; exact Option.noConfusion heq
    | some lb =>
      rw [update_playing r g lb hst hlast, Option.some.injEq] at heq
      subst heq
      constructor
      · rw [updateGo_score, scoreStep]
        split
        · next h2 => exact h2.le
        · exact le_refl _
      · rw [updateGo_camera]
        exact camStep_le _ _ _
  · rw [Game.update, if_neg hst, Option.some.injEq] at heq
    subst heq
    exact ⟨le_refl _, le_refl _⟩

/-- C6, witness: instantiated at the finished example game, whose update
returns it unchanged. -/
theorem c6_witness : exGameOver.score ≤ exGameOver.score ∧
    exGameOver.camera_y ≤ exGameOver.camera_y :=
  c6_theorem exGameOver 0 exGameOver rfl

/-! ## Claim C7 -/

/-- C7: once the state is GameOver, update returns the whole world
unchanged: player, platforms, camera, score, viewport and state; iterating
it therefore changes nothing until a restart builds a new game. -/
theorem c7_theorem (g : Game) (r : ℚ) (h : g.state = GameState.GameOver) :
    Game.update r g = some g :=
  update_gameOver r g h

/-- C7, witness: the finished example game is its own update image. -/
theorem c7_witness : Game.update 0 exGameOver = some exGameOver :=
  c7_theorem exGameOver 0 rfl

/-! ## Claim C8 -/

/-- C8: jump sets velocity_y to -15 and raises is_jumping exactly when the
state is Playing and is_jumping is clear; in every other case it leaves the
world unchanged, so a second jump before landing is a no-op. -/
theorem c8_theorem (g : Game) :
    ((g.state = GameState.Playing ∧ g.player.is_jumping = false) →
      (Game.jump g).player.velocity_y = -15 ∧ (Game.jump g).player.is_jumping = true) ∧
    (¬(g.state = GameState.Playing ∧ g.player.is_jumping = false) → Game.jump g = g) ∧
    Game.jump (Game.jump g) = Game.jump g := by
  by_cases hc : g.state = GameState.Playing ∧ g.player.is_jumping = false
  · refine ⟨fun _ => ?_, fun hn => absurd hc hn, ?_⟩
    · rw [Game.jump, if_pos hc]
      exact ⟨rfl, rfl⟩
    · have h1 : Game.jump g = { g with player :=
          { g.player with velocity_y := -15, is_jumping := true } } := by
        rw [Game.jump, if_pos hc]
      rw [h1, Game.jump, if_neg (by simp)]
  · have h1 : Game.jump g = g := by rw [Game.jump, if_neg hc]
    exact ⟨fun h => absurd h hc, fun _ => h1, by rw [h1, h1]⟩

/-- C8, witness: a fresh game is Playing and not jumping, so its first jump
takes effect. -/
theorem c8_witness :
    (Game.jump (Game.new 800 1200 rz)).player.velocity_y = -15 ∧
      (Game.jump (Game.new 800 1200 rz)).player.is_jumping = true :=
  (c8_theorem (Game.new 800 1200 rz)).1 ⟨rfl, rfl⟩

/-! ## Claim C1 -/

/-- C1, counterexample: the construction subtractions are u32, not integer
or real, subtraction. On an 800 by 100 viewport the first generated row
wraps to 2 ^ 32 - 20 instead of the claimed H - 120 = -20. -/
theorem c1_counterexample :
    ((Game.new 800 100 rz).blocks[1]?).map Block.y = some ((4294967276 : ℚ)) ∧
    ((Game.new 800 100 rz).blocks[1]?).map Block.y ≠ some ((100 : ℚ) - 120 * 1) := by
  constructor
  · norm_num [Game.new, u32sub, List.range_succ]
  · norm_num [Game.new, u32sub, List.range_succ]

/-- C1, amended: for a viewport with width at least 100 and height at least
1080 (so no u32 subtraction in Game::new wraps), construction seeds exactly
the ground platform at (0, H - 20) of size W by 20 plus nine platforms at
y = H - 120 i with width 100, height 20 and x the i-th uniform draw scaled
to [0, W - 100]; the player starts at (W / 2 - 25, H - 70), the camera at 0,
the score at 0 and the state at Playing. For smaller viewports the
subtractions wrap modulo 2 ^ 32 rather than going negative. -/
theorem c1_theorem (W H : ℕ) (r : ℕ → ℚ)
    (hW : 100 ≤ W) (hH : 1080 ≤ H) (hW2 : W < 2 ^ 32) (hH2 : H < 2 ^ 32)
    (hr : ∀ i, 0 ≤ r i ∧ r i < 1) :
    (Game.new W H r).state = GameState.Playing ∧
    (Game.new W H r).camera_y = 0 ∧
    (Game.new W H r).score = 0 ∧
    (Game.new W H r).player.x = ((W / 2 : ℕ) : ℚ) - 25 ∧
    (Game.new W H r).player.y = (H : ℚ) - 70 ∧
    (Game.new W H r).blocks.length = 10 ∧
    (Game.new W H r).blocks.head? = some (Block.mk 0 ((H : ℚ) - 20) (W : ℚ) 20) ∧
    ∀ i, 1 ≤ i → i ≤ 9 →
      (Game.new W H r).blocks[i]? =
        some (Block.mk (r i * ((W : ℚ) - 100)) ((H : ℚ) - 120 * (i : ℚ)) 100 20) ∧
      0 ≤ r i * ((W : ℚ) - 100) ∧ r i * ((W : ℚ) - 100) ≤ (W : ℚ) - 100 := by
  have hcW : ((u32sub W 100 : ℕ) : ℚ) = (W : ℚ) - 100 := by
    rw [u32sub_eq (by omega) hW2, Nat.cast_sub (by omega)]
    norm_num
  have hW100 : (0 : ℚ) ≤ (W : ℚ) - 100 := by
    have : (100 : ℚ) ≤ (W : ℚ) := by exact_mod_cast hW
    linarith
  refine ⟨rfl, rfl, rfl, rfl, ?_, ?_, ?_, ?_⟩
  · show ((u32sub H 70 : ℕ) : ℚ) = (H : ℚ) - 70
    rw [u32sub_eq (by omega) hH2, Nat.cast_sub (by omega)]
    norm_num
  · simp [Game.new]
  · show some _ = some _
    rw [u32sub_eq (by omega) hH2, Nat.cast_sub (by omega)]
    norm_num
  · intro i h1 h9
    obtain ⟨j, rfl⟩ : ∃ j, i = j + 1 := ⟨i - 1, by omega⟩
    have hj : j < 9 := by omega
    refine ⟨?_, mul_nonneg (hr _).1 hW100, ?_⟩
    · show (Block.mk 0 ((u32sub H 20 : ℕ) : ℚ) (W : ℚ) 20 ::
        (List.range 9).map _)[j + 1]? = _
      rw [List.getElem?_cons_succ, List.getElem?_map, List.getElem?_range hj,
        Option.map_some']
      rw [hcW, u32sub_eq (by omega) hH2, Nat.cast_sub (by omega)]
      push_cast
      ring_nf
    · have := mul_le_mul_of_nonneg_right (hr (j + 1)).2.le hW100
      linarith

/-- C1, witness: the amended construction description instantiated on an
800 by 1200 viewport with the zero random source. -/
theorem c1_witness :
    (Game.new 800 1200 rz).blocks.length = 10 ∧
      (Game.new 800 1200 rz).player.y = (1200 : ℚ) - 70 ∧
      (Game.new 800 1200 rz).blocks[3]? =
        some (Block.mk (rz 3 * ((800 : ℚ) - 100)) ((1200 : ℚ) - 120 * (3 : ℚ)) 100 20) := by
  have h := c1_theorem 800 1200 rz (by norm_num) (by norm_num) (by norm_num) (by norm_num)
    (fun i => ⟨le_refl 0, by norm_num [rz]⟩)
  exact ⟨h.2.2.2.2.2.1, h.2.2.2.2.1, (h.2.2.2.2.2.2.2 3 (by norm_num) (by norm_num)).1⟩

/-! ## Claim C2 -/

/-- C2, counterexample: the generation step is a single conditional, not a
loop. One tick on a fresh 800 by 1200 game appends one platform, after which
the last platform still sits at screen-relative height 0, far above the
claimed bound of -100, while the game remains Playing. -/
theorem c2_counterexample :
    (Game.update 0 (Game.new 800 1200 rz)).map
      (fun g => decide (g.state = GameState.Playing) &&
        g.blocks.getLast?.elim false (fun b => decide ((-100 : ℚ) < b.y - g.camera_y))) =
      some true := by
  norm_num [Game.update, Game.new, updateGo, collideAll, collideOne, matchB, physStep,
    camStep, scoreStep, ratTrunc, genOne, u32sub, rz, Player.new, List.range_succ,
    List.filter, List.getLast?]

/-- C2, amended: in a tick entered while Playing with last platform lb, the
generation step appends exactly one platform, 120 units above lb, when
lb's screen-relative y against the tick's post-follow camera is above -100:
the resulting blocks are the pruning filter applied to the old list with
that single platform appended. When it is not above -100 the generation
step appends nothing: the resulting blocks are the pruning filter applied
to the old list unchanged. Either way at most one platform is gained, and
no bound on the last platform's screen-relative y holds when the tick
returns. -/
theorem c2_theorem (g : Game) (r : ℚ) (g' : Game) (lb : Block)
    (hst : g.state = GameState.Playing) (hlast : g.blocks.getLast? = some lb)
    (heq : Game.update r g = some g') :
    ((-100 : ℚ) < lb.y -
        camStep g.height g.camera_y (collideAll (physStep g.width g.player) g.blocks) →
      g'.blocks = (g.blocks ++ [genOne r g.width lb]).filter
        (fun b => decide (b.y -
          camStep g.height g.camera_y (collideAll (physStep g.width g.player) g.blocks) <
            (g.height : ℚ))) ∧
      (genOne r g.width lb).y = lb.y - 120) ∧
    (¬ ((-100 : ℚ) < lb.y -
        camStep g.height g.camera_y (collideAll (physStep g.width g.player) g.blocks)) →
      g'.blocks = g.blocks.filter
        (fun b => decide (b.y -
          camStep g.height g.camera_y (collideAll (physStep g.width g.player) g.blocks) <
            (g.height : ℚ)))) ∧
    g'.blocks.length ≤ g.blocks.length + 1 := by
  rw [update_playing r g lb hst hlast, Option.some.injEq] at heq
  subst heq
  refine ⟨?_, ?_, ?_⟩
  · intro hgen
    rw [updateGo_blocks, if_pos hgen]
    exact ⟨rfl, genOne_y r g.width lb⟩
  · intro hgen
    rw [updateGo_blocks, if_neg hgen]
  · rw [updateGo_blocks]
    refine le_trans (List.length_filter_le _ _) ?_
    split
    · rw [List.length_append]
      norm_num
    · exact Nat.le_succ _

/-- C2, witness: one Playing tick of the small example game fires the
generation conditional and appends exactly the one platform 120 above the
previous last, giving the two-platform list of its successor state. -/
theorem c2_witness :
    gSmall'.blocks = (gSmall.blocks ++ [genOne 0 gSmall.width (Block.mk 0 500 100 20)]).filter
      (fun b => decide (b.y -
        camStep gSmall.height gSmall.camera_y
          (collideAll (physStep gSmall.width gSmall.player) gSmall.blocks) <
          (gSmall.height : ℚ))) ∧
    (genOne 0 gSmall.width (Block.mk 0 500 100 20)).y = (Block.mk 0 500 100 20).y - 120 :=
  (c2_theorem gSmall 0 gSmall' (Block.mk 0 500 100 20) rfl rfl
    (by
      norm_num [Game.update, gSmall, gSmall', updateGo, collideAll, collideOne, matchB,
        physStep, camStep, scoreStep, ratTrunc, genOne, u32sub, Player.new, List.filter,
        List.getLast?])).1
    (by
      norm_num [gSmall, camStep, collideAll, collideOne, matchB, physStep, Player.new])

/-! ## Claim C3 -/

/-- C3, counterexample: when two platforms both pass the collision test
against the pre-collision state, the first match in iteration order wins,
not the last: the snap zeroes velocity_y, which disables every later test.
Here both stacked platforms match, yet the player bottom ends on the first
platform top 100, not on the last matching top 105. -/
theorem c3_counterexample :
    matchB (physStep 800 gTwoHits.player) (Block.mk 0 100 100 20) ∧
    matchB (physStep 800 gTwoHits.player) (Block.mk 0 105 100 20) ∧
    (Game.update 0 gTwoHits).map (fun g => g.player.y + g.player.height) = some 100 ∧
    (Game.update 0 gTwoHits).map (fun g => g.player.y + g.player.height) ≠ some 105 := by
  refine ⟨?_, ?_, ?_, ?_⟩
  · norm_num [matchB, physStep, gTwoHits]
  · norm_num [matchB, physStep, gTwoHits]
  · norm_num [Game.update, updateGo, collideAll, collideOne, matchB, physStep,
      camStep, scoreStep, ratTrunc, genOne, u32sub, gTwoHits, List.filter, List.getLast?]
  · norm_num [Game.update, updateGo, collideAll, collideOne, matchB, physStep,
      camStep, scoreStep, ratTrunc, genOne, u32sub, gTwoHits, List.filter, List.getLast?]

/-- C3, amended: the first platform in iteration order that passes the
collision test against the pre-collision player state determines the
outcome: the loop snaps the player bottom to its top, zeroes velocity_y and
clears is_jumping, and no later platform can match. -/
theorem c3_theorem (p : Player) (bs : List Block) (b : Block)
    (h : bs.find? (fun x => decide (matchB p x)) = some b) :
    (collideAll p bs).y = b.y - p.height ∧ (collideAll p bs).velocity_y = 0 ∧
      (collideAll p bs).is_jumping = false := by
  induction bs with
  | nil => simp at h
  | cons hd tl ih =>
    by_cases hm : matchB p hd
    · rw [List.find?_cons_of_pos _ (by simpa using hm), Option.some.injEq] at h
      subst h
      rw [collideAll_cons, collideOne_of_match p hd hm,
        collideAll_of_nonpos tl _ (by simp)]
      exact ⟨rfl, rfl, rfl⟩
    · rw [List.find?_cons_of_neg _ (by simpa using hm)] at h
      rw [collideAll_cons, collideOne_of_not p hd hm]
      exact ih h

/-- C3, witness: a single matching platform, found by the search, receives
the snap. -/
theorem c3_witness :
    (collideAll (Player.mk 0 50 50 50 0 1 false false false) [Block.mk 0 100 100 20]).y =
        (Block.mk 0 100 100 20).y - (Player.mk 0 50 50 50 0 1 false false false).height ∧
      (collideAll (Player.mk 0 50 50 50 0 1 false false false)
        [Block.mk 0 100 100 20]).velocity_y = 0 ∧
      (collideAll (Player.mk 0 50 50 50 0 1 false false false)
        [Block.mk 0 100 100 20]).is_jumping = false :=
  c3_theorem _ _ _ (by norm_num [List.find?, matchB])

/-! ## Claim C5 -/

/-- C5: whenever the collision loop reaches a platform whose test passes —
falling, horizontal overlap, and bottom within [top, top + velocity_y] — it
snaps the player bottom onto the platform top, zeroes velocity_y and clears
is_jumping; concretely, a fresh 800 by 1200 game (player at rest on the
ground at y = 1130, bottom exactly on the ground top) runs one input-free
tick through velocity 0.5 and lands re-clamped at groundY minus the player
height with zero vertical velocity. -/
theorem c5_theorem :
    (∀ (p : Player) (b : Block), matchB p b →
      (collideOne p b).y + (collideOne p b).height = b.y ∧
      (collideOne p b).velocity_y = 0 ∧ (collideOne p b).is_jumping = false) ∧
    (Game.update 0 (Game.new 800 1200 rz)).map
      (fun g => (g.player.y, g.player.velocity_y)) = some (((1200 : ℚ) - 20) - 50, 0) := by
  constructor
  · intro p b h
    rw [collideOne_of_match p b h]
    refine ⟨?_, rfl, rfl⟩
    show b.y - p.height + p.height = b.y
    ring
  · norm_num [Game.update, Game.new, updateGo, collideAll, collideOne, matchB, physStep,
      camStep, scoreStep, ratTrunc, genOne, u32sub, rz, Player.new, List.range_succ,
      List.filter, List.getLast?]

/-- C5, witness: the per-platform snap rule applied to a concrete falling
player crossing a platform top. -/
theorem c5_witness :
    (collideOne (Player.mk 10 55 50 50 0 3 true false false) (Block.mk 0 104 200 20)).y +
        (collideOne (Player.mk 10 55 50 50 0 3 true false false)
          (Block.mk 0 104 200 20)).height = (Block.mk 0 104 200 20).y ∧
      (collideOne (Player.mk 10 55 50 50 0 3 true false false)
        (Block.mk 0 104 200 20)).velocity_y = 0 ∧
      (collideOne (Player.mk 10 55 50 50 0 3 true false false)
        (Block.mk 0 104 200 20)).is_jumping = false :=
  c5_theorem.1 _ _ (by norm_num [matchB])

/-! ## Claim C9 -/

/-- C9, counterexample: the center fallback is u32 arithmetic, not integer
or real. On a width-10 viewport the band intersection is inverted, the
fallback fires, and W / 2 - 50 wraps to 2 ^ 32 - 45 instead of the claimed
-45. -/
theorem c9_counterexample :
    ¬ (max ((Block.mk 0 500 10 20).x - 200) 50 <
        min ((Block.mk 0 500 10 20).x + (Block.mk 0 500 10 20).width + 200) ((10 : ℚ) - 150)) ∧
    (genOne 0 10 (Block.mk 0 500 10 20)).x = 4294967251 ∧
    (genOne 0 10 (Block.mk 0 500 10 20)).x ≠ ((10 / 2 : ℕ) : ℚ) - 50 := by
  refine ⟨by norm_num, ?_, ?_⟩
  · norm_num [genOne, u32sub]
  · norm_num [genOne, u32sub]

/-- C9, amended: for widths of at least 100 every generated platform sits at
y = last.y - 120 with size 100 by 20; when the intersection of the
reachability band [last.x - 200, last.x + last.width + 200] and the margin
band [50, W - 150] is a proper interval, x is the uniform draw scaled into
it and lies in [50, W - 150]; exactly otherwise x falls back to the center
W / 2 - 50. For widths below 100 the fallback wraps in u32 arithmetic. -/
theorem c9_theorem (r : ℚ) (W : ℕ) (lb : Block) (hr0 : 0 ≤ r) (hr1 : r < 1)
    (hW : 100 ≤ W) (hW2 : W < 2 ^ 32) :
    (genOne r W lb).y = lb.y - 120 ∧ (genOne r W lb).width = 100 ∧
    (genOne r W lb).height = 20 ∧
    (max (lb.x - 200) 50 < min (lb.x + lb.width + 200) ((W : ℚ) - 150) →
      (genOne r W lb).x = max (lb.x - 200) 50 +
        r * (min (lb.x + lb.width + 200) ((W : ℚ) - 150) - max (lb.x - 200) 50) ∧
      50 ≤ (genOne r W lb).x ∧ (genOne r W lb).x ≤ (W : ℚ) - 150) ∧
    (¬ max (lb.x - 200) 50 < min (lb.x + lb.width + 200) ((W : ℚ) - 150) →
      (genOne r W lb).x = ((W / 2 : ℕ) : ℚ) - 50) := by
  have hs : (W : ℚ) - 100 - 50 = (W : ℚ) - 150 := by ring
  have hx : (genOne r W lb).x =
      (if max (lb.x - 200) 50 < min (lb.x + lb.width + 200) ((W : ℚ) - 150) then
        max (lb.x - 200) 50 +
          r * (min (lb.x + lb.width + 200) ((W : ℚ) - 150) - max (lb.x - 200) 50)
      else ((u32sub (W / 2) 50 : ℕ) : ℚ)) := by
    rw [genOne]
    simp only []
    rw [hs]
  refine ⟨genOne_y r W lb, rfl, rfl, ?_, ?_⟩
  · intro h
    rw [hx, if_pos h]
    set mn := max (lb.x - 200) 50 with hmn
    set mx := min (lb.x + lb.width + 200) ((W : ℚ) - 150) with hmx
    have h50 : (50 : ℚ) ≤ mn := le_max_right _ _
    have hup : mx ≤ (W : ℚ) - 150 := min_le_right _ _
    have hd : (0 : ℚ) < mx - mn := by linarith
    have hnn : (0 : ℚ) ≤ r * (mx - mn) := mul_nonneg hr0 hd.le
    have hlt : r * (mx - mn) < 1 * (mx - mn) := mul_lt_mul_of_pos_right hr1 hd
    exact ⟨rfl, by linarith, by linarith⟩
  · intro h
    rw [hx, if_neg h, u32sub_eq (by omega) (by omega), Nat.cast_sub (by omega)]
    norm_num

/-- C9, witness: a generated platform over an 800-wide viewport with a
proper band intersection stays inside the margin band. -/
theorem c9_witness :
    50 ≤ (genOne 0 800 (Block.mk 0 500 100 20)).x ∧
      (genOne 0 800 (Block.mk 0 500 100 20)).x ≤ (800 : ℚ) - 150 := by
  have h := (c9_theorem 0 800 (Block.mk 0 500 100 20) le_rfl (by norm_num) (by norm_num)
    (by norm_num)).2.2.2.1 (by norm_num)
  exact ⟨h.2.1, h.2.2⟩

/-! ## Claim C10 -/

/-- C10, counterexample: the score step computes (H - 70) with u32
subtraction and truncates toward zero. On an 800 by 50 viewport one jump
then one tick produces score 1, while the claimed formula
max(previous, floor(-(y - (H - 70)) / 10)) with real H - 70 yields 0. -/
theorem c10_counterexample :
    (Game.update 0 (Game.jump (Game.new 800 50 rz))).map Game.score = some 1 ∧
    (Game.update 0 (Game.jump (Game.new 800 50 rz))).map
      (fun g => decide (g.score = max 0 ⌊-(g.player.y - ((50 : ℚ) - 70)) / 10⌋)) =
      some false := by
  constructor
  · norm_num [Game.update, Game.jump, Game.new, updateGo, collideAll, collideOne, matchB,
      physStep, camStep, scoreStep, ratTrunc, genOne, u32sub, rz, Player.new,
      List.range_succ, List.filter, List.getLast?]
  · norm_num [Game.update, Game.jump, Game.new, updateGo, collideAll, collideOne, matchB,
      physStep, camStep, scoreStep, ratTrunc, genOne, u32sub, rz, Player.new,
      List.range_succ, List.filter, List.getLast?, Int.floor_eq_iff]

/-- C10, amended: for viewport heights of at least 70 (so the u32
subtraction H - 70 does not wrap) and a non-negative running score (true
throughout any session, since the score starts at 0 and never decreases),
the score after a Playing tick equals the maximum of the previous score and
floor(-(y - (H - 70)) / 10) at the tick's final player y: the code truncates
the candidate toward zero instead of flooring it, but the two differ only on
negative candidates, which the maximum discards either way. -/
theorem c10_theorem (g : Game) (r : ℚ) (g' : Game) (heq : Game.update r g = some g')
    (hst : g.state = GameState.Playing) (hH : 70 ≤ g.height) (hH2 : g.height < 2 ^ 32)
    (hsc : 0 ≤ g.score) :
    g'.score = max g.score ⌊-(g'.player.y - ((g.height : ℚ) - 70)) / 10⌋ := by
  cases hlast : g.blocks.getLast? with
  | none => rw [Game.update, if_pos hst, hlast] at heq; exact Option.noConfusion heq
  | some lb =>
    rw [update_playing r g lb hst hlast, Option.some.injEq] at heq
    subst heq
    rw [updateGo_score, updateGo_player, scoreStep]
    have hcast : ((u32sub g.height 70 : ℕ) : ℚ) = (g.height : ℚ) - 70 := by
      rw [u32sub_eq (by omega) hH2, Nat.cast_sub (by omega)]
      norm_num
    rw [hcast]
    exact ratTrunc_max g.score _ hsc

/-- C10, witness: the amended score rule instantiated on a tick of the small
example game, whose score rises from 0 to 92. -/
theorem c10_witness :
    gSmall'.score = max gSmall.score ⌊-(gSmall'.player.y - ((gSmall.height : ℚ) - 70)) / 10⌋ :=
  c10_theorem gSmall 0 gSmall' (by
      norm_num [Game.update, gSmall, gSmall', updateGo, collideAll, collideOne, matchB,
        physStep, camStep, scoreStep, ratTrunc, genOne, u32sub, Player.new, List.filter,
        List.getLast?])
    rfl (by norm_num [gSmall]) (by norm_num [gSmall]) (by norm_num [gSmall])

end JumpGame
